import Mathlib

/-!
Verification development for the price-ingestion service (`main.go`, the
level-3 variant: `processCSV`, `handlePost`, `handleGet`).

The Go code is shallowly embedded: CSV entries are lists of rows (each row a
list of cells), the database is an explicit list of inserted records, and the
outcome of each `db.Exec` insert is supplied by an oracle
`ins : Nat → Option String` giving, for the k-th insert attempt of the call,
`none` on success or `some msg` when the driver reports an error with message
`msg` (the Go code classifies the error purely by substring search on the
message, which is what we embed).
-/

/-! ### String helpers mirroring the Go standard library -/

/-- ASCII lower-casing of one character, as Go `strings.ToLower` acts on
ASCII input (the only input the header keywords need). -/
def lowerChar (c : Char) : Char :=
  if 'A' ≤ c ∧ c ≤ 'Z' then Char.ofNat (c.toNat + 32) else c

/-- `strings.ToLower`. -/
def goLower (s : String) : String := ⟨s.data.map lowerChar⟩

/-- White-space test used by `strings.TrimSpace` (ASCII subset). -/
def isSpaceChar (c : Char) : Bool :=
  c = ' ' ∨ c = '\t' ∨ c = '\n' ∨ c = '\r' ∨ c = '\x0b' ∨ c = '\x0c'

/-- `strings.TrimSpace`. -/
def goTrim (s : String) : String :=
  ⟨((s.data.dropWhile isSpaceChar).reverse.dropWhile isSpaceChar).reverse⟩

/-- Does `pat` occur at the head of `s`? -/
def listLeadsWith : List Char → List Char → Bool
  | [], _ => true
  | _ :: _, [] => false
  | p :: ps, c :: cs => p = c && listLeadsWith ps cs

/-- Does `pat` occur somewhere inside `s`? -/
def listHasSub : List Char → List Char → Bool
  | [], pat => pat.isEmpty
  | c :: rest, pat => listLeadsWith pat (c :: rest) || listHasSub rest pat

/-- `strings.Contains`. -/
def goContains (s pat : String) : Bool := listHasSub s.data pat.data

/-- Does `s` end with `suff`? (`strings.HasSuffix`). -/
def goEndsWith (s suff : String) : Bool :=
  listLeadsWith suff.data.reverse s.data.reverse

/-- Value of a decimal digit character. -/
def digitVal? (c : Char) : Option Nat :=
  if '0' ≤ c ∧ c ≤ '9' then some (c.toNat - 48) else none

/-- Parse a non-empty all-digit character list as a natural number. -/
def parseDigits? (l : List Char) : Option Nat :=
  if l.isEmpty then none
  else l.foldl (fun acc c =>
    match acc, digitVal? c with
    | some n, some d => some (n * 10 + d)
    | _, _ => none) (some 0)

/-- `strconv.Atoi`: optional sign followed by at least one digit. -/
def atoi? (s : String) : Option Int :=
  match s.data with
  | '+' :: rest => (parseDigits? rest).map (fun n => (n : Int))
  | '-' :: rest => (parseDigits? rest).map (fun n => -(n : Int))
  | l => (parseDigits? l).map (fun n => (n : Int))

/-! ### Calendar dates (the two layouts `time.Parse` is tried with) -/

def isLeapYear (y : Nat) : Bool := (y % 4 = 0 ∧ y % 100 ≠ 0) ∨ y % 400 = 0

def daysInMonth (y m : Nat) : Nat :=
  if m = 2 then (if isLeapYear y then 29 else 28)
  else if m = 4 ∨ m = 6 ∨ m = 9 ∨ m = 11 then 30
  else 31

/-- Range-check a parsed year/month/day triple, as `time.Parse` does. -/
def mkDate? (y m d : Nat) : Option (Nat × Nat × Nat) :=
  if 1 ≤ m ∧ m ≤ 12 ∧ 1 ≤ d ∧ d ≤ daysInMonth y m then some (y, m, d) else none

/-- `time.Parse("2006-01-02", s)`: exactly `yyyy-mm-dd`, zero-padded. -/
def parseISOdate? : List Char → Option (Nat × Nat × Nat)
  | [y1, y2, y3, y4, '-', m1, m2, '-', d1, d2] =>
    match digitVal? y1, digitVal? y2, digitVal? y3, digitVal? y4,
          digitVal? m1, digitVal? m2, digitVal? d1, digitVal? d2 with
    | some a, some b, some c, some d, some e, some f, some g, some h =>
      mkDate? (((a * 10 + b) * 10 + c) * 10 + d) (e * 10 + f) (g * 10 + h)
    | _, _, _, _, _, _, _, _ => none
  | _ => none

/-- `time.Parse("02.01.2006", s)`: exactly `dd.mm.yyyy`, zero-padded. -/
def parseDotDate? : List Char → Option (Nat × Nat × Nat)
  | [d1, d2, '.', m1, m2, '.', y1, y2, y3, y4] =>
    match digitVal? y1, digitVal? y2, digitVal? y3, digitVal? y4,
          digitVal? m1, digitVal? m2, digitVal? d1, digitVal? d2 with
    | some a, some b, some c, some d, some e, some f, some g, some h =>
      mkDate? (((a * 10 + b) * 10 + c) * 10 + d) (e * 10 + f) (g * 10 + h)
    | _, _, _, _, _, _, _, _ => none
  | _ => none

def pad2 (n : Nat) : String := if n < 10 then "0" ++ toString n else toString n

def pad4 (n : Nat) : String :=
  if n < 10 then "000" ++ toString n
  else if n < 100 then "00" ++ toString n
  else if n < 1000 then "0" ++ toString n
  else toString n

/-- `createDate.Format("2006-01-02")`. -/
def formatISO (d : Nat × Nat × Nat) : String :=
  pad4 d.1 ++ "-" ++ pad2 d.2.1 ++ "-" ++ pad2 d.2.2

/-! ### Data model -/

/-- The JSON response of a successful POST (Go struct `Stats`). -/
structure Stats where
  totalCount : Nat
  duplicatesCount : Nat
  totalItems : Nat
  totalCategories : Nat
  totalPrice : Int
deriving Repr, DecidableEq

/-- One record inserted into the `prices` table by the ingestion call
(the `date` field is the normalized ISO day, `none` for a NULL
`create_date`). -/
structure Rec where
  name : String
  category : String
  price : Int
  date : Option String
deriving Repr, DecidableEq

/-- The column-index mapping resolved from the first row of an entry
(Go local variables `nameIdx, categoryIdx, priceIdx, dateIdx`; the sentinel
`-1` means unresolved, exactly as in the source). -/
structure ColIdx where
  nameIdx : Int
  categoryIdx : Int
  priceIdx : Int
  dateIdx : Int
deriving Repr, DecidableEq

/-- The mutable state threaded through `processCSV` and `handlePost`:
the counters, the category set, the duplicate-detection key set, the records
inserted so far in this call, and the number of insert attempts issued. -/
structure ProcState where
  rowsProcessed : Nat
  itemsInserted : Nat
  duplicatesCount : Nat
  priceSum : Int
  categories : List String
  seenItems : List String
  inserted : List Rec
  attempts : Nat
deriving Repr, DecidableEq

def initState : ProcState := ⟨0, 0, 0, 0, [], [], [], 0⟩

/-- Map-key insertion: Go `m[k] = true` on a `map[string]bool`. -/
def addSet (l : List String) (x : String) : List String :=
  if x ∈ l then l else l ++ [x]

/-! ### Header detection and column resolution (`processCSV`, first half) -/

/-- Normalization applied to each first-row cell before matching
(`strings.ToLower(strings.TrimSpace(header))`). -/
def normHdr (h : String) : String := goLower (goTrim h)

def hitName (h : String) : Bool := goContains (normHdr h) "name"
def hitCat (h : String) : Bool := goContains (normHdr h) "category"
def hitPrice (h : String) : Bool := goContains (normHdr h) "price"
def hitDate (h : String) : Bool := goContains (normHdr h) "date"

/-- One iteration of the header-scanning loop: an else-if chain over the
four keywords.  (The source's extra branch for a first cell equal to `"id"`
executes `continue`, which does nothing, so it does not appear here.) -/
def detectStep (h : String) (i : Nat) (acc : ColIdx) : ColIdx :=
  if hitName h then { acc with nameIdx := (i : Int) }
  else if hitCat h then { acc with categoryIdx := (i : Int) }
  else if hitPrice h then { acc with priceIdx := (i : Int) }
  else if hitDate h then { acc with dateIdx := (i : Int) }
  else acc

/-- The header-scanning loop over all first-row cells. -/
def detectCols : List String → Nat → ColIdx → ColIdx
  | [], _, acc => acc
  | h :: rest, i, acc => detectCols rest (i + 1) (detectStep h i acc)

def initCols : ColIdx := ⟨-1, -1, -1, -1⟩

/-- Header detection followed by the positional fallback, exactly as in
`processCSV`: name falls back to column 1 when the row has width ≥ 2 and a
non-empty first cell, category to column 2 (width ≥ 3), price to column 3
(width ≥ 4), date to column 4 (width ≥ 5). -/
def resolveCols (headers : List String) : ColIdx :=
  let c := detectCols headers 0 initCols
  let c := if c.nameIdx = -1 ∧ headers.length ≥ 2 ∧ headers.headD "" ≠ "" then
    { c with nameIdx := 1 } else c
  let c := if c.categoryIdx = -1 ∧ headers.length ≥ 3 then
    { c with categoryIdx := 2 } else c
  let c := if c.priceIdx = -1 ∧ headers.length ≥ 4 then
    { c with priceIdx := 3 } else c
  let c := if c.dateIdx = -1 ∧ headers.length ≥ 5 then
    { c with dateIdx := 4 } else c
  c

/-! ### Row decoding (`processCSV`, second half) -/

/-- Cell access `row[i]` (guarded by the width checks before use). -/
def getCol (row : List String) (i : Int) : String := row.getD i.toNat ""

/-- Go classification of an insert error as a duplicate-key conflict:
the lowered message contains `"duplicate"` or `"unique"`. -/
def isDupErrMsg (msg : String) : Bool :=
  goContains (goLower msg) "duplicate" || goContains (goLower msg) "unique"

/-- The body of the row loop after `*totalRowsProcessed++`: width check,
cell extraction/trimming, empty-field skip, price parse, optional date
parse, duplicate-key check, and the insert with its error classification.
Returns the new state and `some msg` when a fatal insert error aborts the
entry. -/
def procRowCore (c : ColIdx) (ins : Nat → Option String) (st : ProcState)
    (row : List String) : ProcState × Option String :=
  if c.nameIdx ≥ (row.length : Int) ∨ c.categoryIdx ≥ (row.length : Int) ∨
      c.priceIdx ≥ (row.length : Int) then
    (st, none)
  else
    let name := goTrim (getCol row c.nameIdx)
    let category := goTrim (getCol row c.categoryIdx)
    let priceStr := goTrim (getCol row c.priceIdx)
    if name = "" ∨ category = "" ∨ priceStr = "" then (st, none)
    else
      match atoi? priceStr with
      | none => (st, none)
      | some price =>
        let dateRes : Option (Option String) :=
          if c.dateIdx ≠ -1 ∧ c.dateIdx < (row.length : Int) ∧
              getCol row c.dateIdx ≠ "" then
            let dateStr := goTrim (getCol row c.dateIdx)
            match (match parseISOdate? dateStr.data with
                   | some ymd => some ymd
                   | none => parseDotDate? dateStr.data) with
            | some ymd => some (some (formatISO ymd))
            | none => if dateStr ≠ "" then none else some none
          else some none
        match dateRes with
        | none => (st, none)
        | some dateOpt =>
          let dateKey := dateOpt.getD ""
          let itemKey :=
            name ++ "|" ++ category ++ "|" ++ toString price ++ "|" ++ dateKey
          if itemKey ∈ st.seenItems then
            ({ st with duplicatesCount := st.duplicatesCount + 1 }, none)
          else
            let st := { st with seenItems := st.seenItems ++ [itemKey] }
            match ins st.attempts with
            | some msg =>
              let st := { st with attempts := st.attempts + 1 }
              if isDupErrMsg msg then
                ({ st with duplicatesCount := st.duplicatesCount + 1 }, none)
              else
                (st, some msg)
            | none =>
              let st := { st with attempts := st.attempts + 1 }
              ({ st with
                  itemsInserted := st.itemsInserted + 1,
                  priceSum := st.priceSum + price,
                  categories := addSet st.categories category,
                  inserted := st.inserted ++ [⟨name, category, price, dateOpt⟩] },
               none)

/-- One data row: `*totalRowsProcessed++` then the row body. -/
def procRow (c : ColIdx) (ins : Nat → Option String) (st : ProcState)
    (row : List String) : ProcState × Option String :=
  procRowCore c ins { st with rowsProcessed := st.rowsProcessed + 1 } row

/-- The row loop of `processCSV`, aborting on a fatal insert error. -/
def processRows (c : ColIdx) (ins : Nat → Option String) :
    List (List String) → ProcState → ProcState × Option String
  | [], st => (st, none)
  | r :: rs, st =>
    match procRow c ins st r with
    | (st', none) => processRows c ins rs st'
    | (st', some e) => (st', some e)

/-- `processCSV`: consume the first row as the header-candidates row,
resolve the column mapping, fail if name/category/price stayed unresolved,
then decode the remaining rows.  An entry with no rows fails at the header
read (`io.EOF` is an error there). -/
def processCSV (ins : Nat → Option String) (rows : List (List String))
    (st : ProcState) : ProcState × Option String :=
  match rows with
  | [] => (st, some "failed to read headers")
  | headers :: dataRows =>
    let c := resolveCols headers
    if c.nameIdx = -1 ∨ c.categoryIdx = -1 ∨ c.priceIdx = -1 then
      (st, some "required columns not found")
    else processRows c ins dataRows st

/-! ### `handlePost` -/

/-- A parsed archive entry: its name and its CSV rows. -/
abbrev Entry := String × List (List String)

/-- The archive loop of `handlePost`: entries whose lowered name does not
end in `.csv` are skipped; each CSV entry is processed against the shared
state; a processing error aborts the loop. -/
def processEntries (ins : Nat → Option String) :
    List Entry → ProcState → Bool → ProcState × Bool × Option String
  | [], st, anyCSV => (st, anyCSV, none)
  | (nm, rows) :: rest, st, anyCSV =>
    if goEndsWith (goLower nm) ".csv" then
      match processCSV ins rows st with
      | (st', none) => processEntries ins rest st' true
      | (st', some e) => (st', anyCSV, some e)
    else processEntries ins rest st anyCSV

/-- The HTTP outcome of a POST call. -/
inductive PostOutcome where
  | ok (stats : Stats)
  | badRequest (msg : String)
  | serverError (msg : String)
deriving Repr, DecidableEq

/-- The archive-kind-independent part of `handlePost`, also returning the
final contents of the `prices` table.  The call never truncates the table
(the source removed the reset), so every successful insert is appended to
the pre-existing contents `pre`. -/
def postArchive (entries : List Entry) (ins : Nat → Option String)
    (pre : List Rec) : PostOutcome × List Rec :=
  match processEntries ins entries initState false with
  | (st, _, some _) => (.badRequest "csv processing error", pre ++ st.inserted)
  | (st, anyCSV, none) =>
    if anyCSV then
      (.ok ⟨st.rowsProcessed, st.duplicatesCount, st.itemsInserted,
            st.categories.length, st.priceSum⟩,
       pre ++ st.inserted)
    else (.badRequest "no csv files found", pre ++ st.inserted)

/-- `handlePost`: the `type` query parameter selects zip (also the default)
or tar; at this abstraction level (entries already extracted from the
container) the two branches run the same per-entry pipeline.  Any other
`type` is rejected. -/
def handlePost (queryType : String) (entries : List Entry)
    (ins : Nat → Option String) (pre : List Rec) : PostOutcome × List Rec :=
  if queryType = "zip" ∨ queryType = "" then postArchive entries ins pre
  else if queryType = "tar" then postArchive entries ins pre
  else (.badRequest "unsupported archive type", pre)

/-- The all-inserts-succeed oracle (a healthy store with no uniqueness
constraint). -/
def insNone : Nat → Option String := fun _ => none

/-! ### `handleGet` -/

/-- One stored row as read back from the `prices` table, with its
store-assigned serial id. -/
structure StoredRow where
  id : Nat
  name : String
  category : String
  price : Int
  date : Option String
deriving Repr, DecidableEq

/-- Lexicographic comparison of character lists (the order Postgres induces
on ISO-formatted dates of equal layout). -/
def charListLT : List Char → List Char → Bool
  | [], [] => false
  | [], _ :: _ => true
  | _ :: _, [] => false
  | a :: as, b :: bs =>
    if a.toNat < b.toNat then true
    else if a.toNat = b.toNat then charListLT as bs
    else false

def strLE (a b : String) : Bool := a.data = b.data || charListLT a.data b.data

/-- Modelled from the spec: the Store Gateway is an external collaborator;
a date-typed comparison bound supplied to the store parses only when it is
a valid calendar date (modelled here as the ISO `yyyy-mm-dd` layout the
rest of the system emits), and a bound that does not parse makes the whole
filtered-select fail at the store layer. -/
def pgDateOk (s : String) : Bool := (parseISOdate? s.data).isSome

/-- The conjunctive WHERE predicate built by `handleGet`.  A date bound
compares against `create_date` (a row with NULL `create_date` never
satisfies a date comparison); a `min`/`max` bound that fails `strconv.Atoi`
is silently replaced by `0` / `1000000` respectively, exactly as in the
source. -/
def rowMatches (startD endD minP maxP : String) (r : StoredRow) : Bool :=
  (if startD = "" then true
   else match r.date with
        | none => false
        | some d => strLE startD d) &&
  (if endD = "" then true
   else match r.date with
        | none => false
        | some d => strLE d endD) &&
  (if minP = "" then true else decide (r.price ≥ (atoi? minP).getD 0)) &&
  (if maxP = "" then true else decide (r.price ≤ (atoi? maxP).getD 1000000))

/-- The `ORDER BY id` relation. -/
def idLE (a b : StoredRow) : Prop := a.id ≤ b.id

instance : DecidableRel idLE := fun a b => inferInstanceAs (Decidable (a.id ≤ b.id))

instance : IsTotal StoredRow idLE := ⟨fun a b => Nat.le_total a.id b.id⟩

instance : IsTrans StoredRow idLE := ⟨fun _ _ _ => Nat.le_trans⟩

/-- `ORDER BY id`. -/
def sortById (l : List StoredRow) : List StoredRow := List.insertionSort idLE l

/-- The header row `handleGet` writes before the data rows. -/
def exportHeader : List String := ["name", "category", "price", "create_date"]

/-- One exported CSV row: name, category, price, and the ISO date or the
empty string for NULL. -/
def encodeRow (r : StoredRow) : List String :=
  [r.name, r.category, toString r.price, r.date.getD ""]

/-- The HTTP outcome of a GET call: a zip archive given as its list of
named entries, or a 500-class error. -/
inductive GetOutcome where
  | ok (entries : List (String × List (List String)))
  | serverError (msg : String)
deriving Repr, DecidableEq

/-- `handleGet`: build the filter, run the filtered-select ordered by id
(a date bound the store cannot parse fails the query, which the handler
maps to a 500-class response), then encode the header row followed by one
row per result into the single entry `data.csv` of a fresh archive. -/
def handleGet (store : List StoredRow) (startD endD minP maxP : String) :
    GetOutcome :=
  if (startD ≠ "" ∧ pgDateOk startD = false) ∨
      (endD ≠ "" ∧ pgDateOk endD = false) then
    .serverError "db query error"
  else
    let rows := sortById (store.filter (rowMatches startD endD minP maxP))
    .ok [("data.csv", exportHeader :: rows.map encodeRow)]

/-! ### Helper lemmas -/

/-- The statistics invariant: each data row increments `rowsProcessed` once
and at most one of `duplicatesCount` / `itemsInserted`. -/
def statsInv (st : ProcState) : Prop :=
  st.duplicatesCount + st.itemsInserted ≤ st.rowsProcessed

theorem procRowCore_counts (c : ColIdx) (ins : Nat → Option String)
    (st : ProcState) (row : List String) :
    (procRowCore c ins st row).1.rowsProcessed = st.rowsProcessed ∧
    (procRowCore c ins st row).1.duplicatesCount +
      (procRowCore c ins st row).1.itemsInserted ≤
      st.duplicatesCount + st.itemsInserted + 1 := by
  unfold procRowCore
  dsimp only
  repeat' split
  all_goals simp
  all_goals omega

theorem procRow_inv (c : ColIdx) (ins : Nat → Option String)
    (st : ProcState) (row : List String) (h : statsInv st) :
    statsInv (procRow c ins st row).1 := by
  have hc := procRowCore_counts c ins
    { st with rowsProcessed := st.rowsProcessed + 1 } row
  unfold procRow statsInv at *
  dsimp only at hc
  omega

theorem processRows_inv (c : ColIdx) (ins : Nat → Option String) :
    ∀ (rs : List (List String)) (st : ProcState),
    statsInv st → statsInv (processRows c ins rs st).1 := by
  intro rs
  induction rs with
  | nil => intro st h; exact h
  | cons r rs ih =>
    intro st h
    have h1 : statsInv (procRow c ins st r).1 := procRow_inv c ins st r h
    unfold processRows
    cases hpr : procRow c ins st r with
    | mk st' e =>
      rw [hpr] at h1
      cases e
      · exact ih st' h1
      · exact h1

theorem processCSV_inv (ins : Nat → Option String) (rows : List (List String))
    (st : ProcState) (h : statsInv st) : statsInv (processCSV ins rows st).1 := by
  unfold processCSV
  cases rows with
  | nil => exact h
  | cons hd tl =>
    dsimp only
    split
    · exact h
    · exact processRows_inv _ _ _ _ h

theorem processEntries_inv (ins : Nat → Option String) :
    ∀ (es : List Entry) (st : ProcState) (b : Bool),
    statsInv st → statsInv (processEntries ins es st b).1 := by
  intro es
  induction es with
  | nil => intro st b h; exact h
  | cons ent rest ih =>
    intro st b h
    obtain ⟨nm, rows⟩ := ent
    unfold processEntries
    split
    · have h1 := processCSV_inv ins rows st h
      cases hpc : processCSV ins rows st with
      | mk st' e =>
        rw [hpc] at h1
        cases e
        · exact ih st' true h1
        · exact h1
    · exact ih st b h

theorem procRowCore_rows (c : ColIdx) (ins : Nat → Option String)
    (st : ProcState) (row : List String) :
    (procRowCore c ins st row).1.rowsProcessed = st.rowsProcessed :=
  (procRowCore_counts c ins st row).1

theorem procRow_rows (c : ColIdx) (ins : Nat → Option String)
    (st : ProcState) (row : List String) :
    (procRow c ins st row).1.rowsProcessed = st.rowsProcessed + 1 := by
  unfold procRow
  rw [procRowCore_rows]

theorem procRow_noFatal (c : ColIdx) (st : ProcState) (row : List String) :
    (procRow c insNone st row).2 = none := by
  unfold procRow procRowCore insNone
  dsimp only
  repeat' split
  all_goals simp

theorem processRows_rows (c : ColIdx) :
    ∀ (rs : List (List String)) (st : ProcState),
    (processRows c insNone rs st).1.rowsProcessed = st.rowsProcessed + rs.length := by
  intro rs
  induction rs with
  | nil => intro st; simp [processRows]
  | cons r rs ih =>
    intro st
    have h1 := procRow_rows c insNone st r
    have h2 := procRow_noFatal c st r
    unfold processRows
    cases hpr : procRow c insNone st r with
    | mk st' e =>
      rw [hpr] at h1 h2
      simp only at h1 h2
      subst h2
      simp only
      rw [ih st', h1]
      simp only [List.length_cons]
      omega

theorem detectStep_name (h : String) (i : Nat) (acc : ColIdx) :
    (detectStep h i acc).nameIdx = if hitName h then (i : Int) else acc.nameIdx := by
  unfold detectStep
  cases h1 : hitName h <;> cases h2 : hitCat h <;> cases h3 : hitPrice h <;>
    cases h4 : hitDate h <;> simp [h1, h2, h3, h4]

theorem detectStep_cat (h : String) (i : Nat) (acc : ColIdx) :
    (detectStep h i acc).categoryIdx =
      if (!hitName h && hitCat h) then (i : Int) else acc.categoryIdx := by
  unfold detectStep
  cases h1 : hitName h <;> cases h2 : hitCat h <;> cases h3 : hitPrice h <;>
    cases h4 : hitDate h <;> simp [h1, h2, h3, h4]

theorem detectStep_price (h : String) (i : Nat) (acc : ColIdx) :
    (detectStep h i acc).priceIdx =
      if (!hitName h && !hitCat h && hitPrice h) then (i : Int) else acc.priceIdx := by
  unfold detectStep
  cases h1 : hitName h <;> cases h2 : hitCat h <;> cases h3 : hitPrice h <;>
    cases h4 : hitDate h <;> simp [h1, h2, h3, h4]

theorem detectStep_date (h : String) (i : Nat) (acc : ColIdx) :
    (detectStep h i acc).dateIdx =
      if (!hitName h && !hitCat h && !hitPrice h && hitDate h) then (i : Int)
      else acc.dateIdx := by
  unfold detectStep
  cases h1 : hitName h <;> cases h2 : hitCat h <;> cases h3 : hitPrice h <;>
    cases h4 : hitDate h <;> simp [h1, h2, h3, h4]

/-- A semantic field stays unresolved by the scanning loop exactly when it
was unresolved on entry and no cell triggers it. -/
theorem detectCols_field (proj : ColIdx → Int) (t : String → Bool)
    (hstep : ∀ h i acc, proj (detectStep h i acc) = if t h then (i : Int) else proj acc) :
    ∀ (hs : List String) (i : Nat) (acc : ColIdx),
    proj (detectCols hs i acc) = -1 ↔ (proj acc = -1 ∧ ∀ h ∈ hs, t h = false) := by
  intro hs
  induction hs with
  | nil => intro i acc; simp [detectCols]
  | cons h hs ih =>
    intro i acc
    show proj (detectCols hs (i + 1) (detectStep h i acc)) = -1 ↔ _
    rw [ih, hstep]
    by_cases ht : t h = true
    · have hne : ¬((i : Int) = -1) := by omega
      simp [ht, hne]
    · rw [Bool.not_eq_true] at ht
      simp [ht, List.forall_mem_cons]

/-! ### Claims -/

/-- C1: ingesting a zip whose single entry `data.csv` holds the header
`name,category,price` and the rows `apple,fruit,100`, `bread,bakery,50`,
`apple,fruit,100` yields `total_count = 3`, `duplicates_count = 1`,
`total_items = 2`, `total_categories = 2`, `total_price = 150`. -/
theorem c1_scenario :
    handlePost "zip"
      [("data.csv",
        [["name", "category", "price"],
         ["apple", "fruit", "100"],
         ["bread", "bakery", "50"],
         ["apple", "fruit", "100"]])] insNone [] =
    (.ok ⟨3, 1, 2, 2, 150⟩,
     [⟨"apple", "fruit", 100, none⟩, ⟨"bread", "bakery", 50, none⟩]) := by
  decide

/-- C2 counterexample: in the entry whose first row is
`1,apple,fruit,100` no cell contains any header substring, yet the decoder
still discards that row: only the second row (`bread`) is decoded and
counted, so the first row is not treated as the first data row. -/
theorem c2_counterexample :
    (∀ h ∈ [("1" : String), "apple", "fruit", "100"],
      hitName h = false ∧ hitCat h = false ∧ hitPrice h = false ∧
      hitDate h = false) ∧
    (processCSV insNone
      [["1", "apple", "fruit", "100"], ["2", "bread", "bakery", "50"]]
      initState).1.inserted = [⟨"bread", "bakery", 50, none⟩] ∧
    (processCSV insNone
      [["1", "apple", "fruit", "100"], ["2", "bread", "bakery", "50"]]
      initState).1.rowsProcessed = 1 := by
  decide

/-- C2 amended: the decoder always consumes the first row for column
resolution and never decodes it as data, whether or not any substring
matched; when resolution succeeds, the rows seen are exactly the rows after
the first. -/
theorem c2_amended (hdr : List String) (rs : List (List String))
    (h : ¬((resolveCols hdr).nameIdx = -1 ∨ (resolveCols hdr).categoryIdx = -1 ∨
           (resolveCols hdr).priceIdx = -1)) :
    (processCSV insNone (hdr :: rs) initState).1.rowsProcessed = rs.length := by
  unfold processCSV
  dsimp only
  rw [if_neg h]
  rw [processRows_rows]
  simp [initState]

/-- C2 witness: the amended statement at the header-less entry. -/
theorem c2_witness :
    (processCSV insNone
      [["1", "apple", "fruit", "100"], ["2", "bread", "bakery", "50"]]
      initState).1.rowsProcessed = 1 :=
  c2_amended ["1", "apple", "fruit", "100"] [["2", "bread", "bakery", "50"]]
    (by decide)

/-- C3 counterexample: a successful POST onto a non-empty store leaves the
prior record in place — the final store is the prior contents followed by
the new record, not exactly the unique validated records of the call. -/
theorem c3_counterexample :
    handlePost "zip"
      [("data.csv", [["name", "category", "price"], ["apple", "fruit", "100"]])]
      insNone [⟨"old", "stuff", 1, none⟩] =
    (.ok ⟨1, 0, 1, 1, 100⟩,
     [⟨"old", "stuff", 1, none⟩, ⟨"apple", "fruit", 100, none⟩]) ∧
    [Rec.mk "old" "stuff" 1 none, Rec.mk "apple" "fruit" 100 none] ≠
      [Rec.mk "apple" "fruit" 100 none] := by
  decide

/-- C3 amended: POST never resets the store; for every recognized archive
kind the final store is the pre-existing contents followed by exactly the
records this call inserted. -/
theorem c3_amended (qt : String) (entries : List Entry)
    (ins : Nat → Option String) (pre : List Rec)
    (h : qt = "zip" ∨ qt = "" ∨ qt = "tar") :
    (handlePost qt entries ins pre).2 =
      pre ++ (processEntries ins entries initState false).1.inserted := by
  have key : (postArchive entries ins pre).2 =
      pre ++ (processEntries ins entries initState false).1.inserted := by
    unfold postArchive
    cases hpe : processEntries ins entries initState false with
    | mk st rest =>
      cases rest with
      | mk b e =>
        cases e
        · cases b <;> simp
        · simp
  rcases h with h | h | h <;> subst h <;> simpa [handlePost] using key

/-- C3 witness: the amended statement at a concrete call onto a non-empty
store. -/
theorem c3_witness :
    (handlePost "zip"
      [("data.csv", [["name", "category", "price"], ["a", "b", "5"]])]
      insNone [Rec.mk "z" "w" 7 none]).2 =
      [Rec.mk "z" "w" 7 none] ++
        (processEntries insNone
          [("data.csv", [["name", "category", "price"], ["a", "b", "5"]])]
          initState false).1.inserted :=
  c3_amended "zip"
    [("data.csv", [["name", "category", "price"], ["a", "b", "5"]])]
    insNone [Rec.mk "z" "w" 7 none] (Or.inl rfl)

/-- C4 counterexample: a per-row insert failure that is NOT a
uniqueness-conflict (message `pq: connection refused`) aborts the call with
the 400-class response `csv processing error`, not a 500-class server
error. -/
theorem c4_counterexample :
    isDupErrMsg "pq: connection refused" = false ∧
    handlePost "" [("data.csv", [["name", "category", "price"], ["a", "b", "5"]])]
      (fun _ => some "pq: connection refused") [] =
    (.badRequest "csv processing error", []) := by
  decide

/-- C4 amended: an insert failure whose message mentions a duplicate or
unique conflict increments `duplicates_count` and the call still succeeds;
any other insert failure aborts the whole call, but with the 400-class
response `csv processing error` rather than a 500-class one. -/
theorem c4_amended (msg : String) :
    (isDupErrMsg msg = true →
      handlePost ""
        [("data.csv", [["name", "category", "price"], ["a", "b", "5"]])]
        (fun _ => some msg) [] = (.ok ⟨1, 1, 0, 0, 0⟩, [])) ∧
    (isDupErrMsg msg = false →
      handlePost ""
        [("data.csv", [["name", "category", "price"], ["a", "b", "5"]])]
        (fun _ => some msg) [] = (.badRequest "csv processing error", [])) := by
  have e1 : resolveCols ["name", "category", "price"] = ⟨0, 1, 2, -1⟩ := by decide
  have e2 : goEndsWith (goLower "data.csv") ".csv" = true := by decide
  have e3 : atoi? "5" = some 5 := by decide
  constructor <;> intro h <;>
    simp [handlePost, postArchive, processEntries, processCSV, processRows,
      procRow, procRowCore, initState, getCol, goTrim, isSpaceChar, e1, e2, e3, h]

/-- C4 witness: both halves of the amended statement at concrete driver
messages. -/
theorem c4_witness :
    handlePost "" [("data.csv", [["name", "category", "price"], ["a", "b", "5"]])]
      (fun _ => some "pq: duplicate key value violates unique constraint") [] =
      (.ok ⟨1, 1, 0, 0, 0⟩, []) ∧
    handlePost "" [("data.csv", [["name", "category", "price"], ["a", "b", "5"]])]
      (fun _ => some "driver: bad connection") [] =
      (.badRequest "csv processing error", []) :=
  ⟨(c4_amended "pq: duplicate key value violates unique constraint").1 (by decide),
   (c4_amended "driver: bad connection").2 (by decide)⟩

/-- C5 counterexample: a first row `product,type,cost` — whose cells
contain the substrings `product`, `type`, `cost` — resolves nothing: the
scanning loop leaves every index at `-1`, and the entry then fails with
`required columns not found` instead of decoding. -/
theorem c5_counterexample :
    detectCols ["product", "type", "cost"] 0 initCols = initCols ∧
    processCSV insNone [["product", "type", "cost"], ["a", "b", "5"]] initState =
      (initState, some "required columns not found") := by
  decide

/-- C5 amended: detection recognizes only the substrings `name`,
`category`, `price`, `date` (case-insensitively, after trimming), through
an else-if chain: a cell sets the category index only if it does not
contain `name`, the price index only if it contains neither `name` nor
`category`, and the date index only if it contains none of the other
three; `product`, `item`, `type`, and `cost` are not recognized. -/
theorem c5_amended (hs : List String) :
    ((detectCols hs 0 initCols).nameIdx ≠ -1 ↔
      ∃ h ∈ hs, hitName h = true) ∧
    ((detectCols hs 0 initCols).categoryIdx ≠ -1 ↔
      ∃ h ∈ hs, (!hitName h && hitCat h) = true) ∧
    ((detectCols hs 0 initCols).priceIdx ≠ -1 ↔
      ∃ h ∈ hs, (!hitName h && !hitCat h && hitPrice h) = true) ∧
    ((detectCols hs 0 initCols).dateIdx ≠ -1 ↔
      ∃ h ∈ hs, (!hitName h && !hitCat h && !hitPrice h && hitDate h) = true) := by
  refine ⟨?_, ?_, ?_, ?_⟩
  · rw [ne_eq, detectCols_field ColIdx.nameIdx hitName detectStep_name hs 0 initCols]
    simp [initCols]
  · rw [ne_eq, detectCols_field ColIdx.categoryIdx _ detectStep_cat hs 0 initCols]
    simp [initCols]
  · rw [ne_eq, detectCols_field ColIdx.priceIdx _ detectStep_price hs 0 initCols]
    simp [initCols, and_assoc]
  · rw [ne_eq, detectCols_field ColIdx.dateIdx _ detectStep_date hs 0 initCols]
    simp [initCols, and_assoc]

/-- C6 counterexample: a width-3 first row with no substring match
(`apple,fruit,100`) resolves to name = column 1, category = column 2,
price unresolved — not 0/1/2 — and the call fails with a 400-class
response instead of decoding successfully. -/
theorem c6_counterexample :
    resolveCols ["apple", "fruit", "100"] = ⟨1, 2, -1, -1⟩ ∧
    handlePost "" [("data.csv", [["apple", "fruit", "100"], ["x", "y", "9"]])]
      insNone [] = (.badRequest "csv processing error", []) := by
  decide

/-- C6 amended: when no cell matches any substring, the positional fallback
assumes an id-first layout — name = column 1 (when the first cell is
non-empty), category = column 2, price = column 3 — so a width-3 first row
leaves price unresolved and the whole entry fails with
`required columns not found`. -/
theorem c6_amended (hs : List String)
    (hdet : detectCols hs 0 initCols = initCols) (hlen : hs.length = 3) :
    resolveCols hs = ⟨if hs.headD "" = "" then -1 else 1, 2, -1, -1⟩ ∧
    ∀ (ins : Nat → Option String) (rs : List (List String)) (st : ProcState),
      processCSV ins (hs :: rs) st = (st, some "required columns not found") := by
  have h1 : resolveCols hs = ⟨if hs.headD "" = "" then -1 else 1, 2, -1, -1⟩ := by
    unfold resolveCols
    rw [hdet]
    by_cases hh : hs.headD "" = ""
    · have hh2 : hs.head?.getD "" = "" := by simpa using hh
      simp [initCols, hlen, hh2]
    · have hh2 : ¬(hs.head?.getD "" = "") := by simpa using hh
      simp [initCols, hlen, hh2]
  refine ⟨h1, ?_⟩
  intro ins rs st
  have hp : (resolveCols hs).priceIdx = -1 := by rw [h1]
  unfold processCSV
  dsimp only
  rw [if_pos (Or.inr (Or.inr hp))]

/-- C6 witness: the amended statement at the width-3 row `apple,fruit,100`. -/
theorem c6_witness :
    resolveCols ["apple", "fruit", "100"] =
      ⟨if (["apple", "fruit", "100"].headD "") = "" then -1 else 1, 2, -1, -1⟩ ∧
    processCSV insNone [["apple", "fruit", "100"], ["x", "y", "9"]] initState =
      (initState, some "required columns not found") :=
  ⟨(c6_amended ["apple", "fruit", "100"] (by decide) (by decide)).1,
   (c6_amended ["apple", "fruit", "100"] (by decide) (by decide)).2 insNone
     [["x", "y", "9"]] initState⟩

/-- C7 counterexample: the bound `min=abc` cannot be parsed as a number,
yet GET succeeds with a full archive (the bound is silently replaced by 0)
instead of failing with a 400-class `InvalidFilterError`. -/
theorem c7_counterexample :
    atoi? "abc" = none ∧
    handleGet [⟨1, "a", "x", 5, none⟩] "" "" "abc" "" =
      .ok [("data.csv",
        [["name", "category", "price", "create_date"], ["a", "x", "5", ""]])] := by
  decide

/-- C7 amended: GET never produces a 400-class filter error: an
unparseable `min`/`max` is silently replaced by the default 0 / 1000000 and
the call succeeds, while an unparseable `start`/`end` is forwarded to the
store, whose query failure surfaces as the 500-class `db query error`. -/
theorem c7_amended :
    (∀ (store : List StoredRow) (mn mx : String),
      ∃ es, handleGet store "" "" mn mx = .ok es) ∧
    (∀ (store : List StoredRow) (s e : String),
      (s ≠ "" ∧ pgDateOk s = false) ∨ (e ≠ "" ∧ pgDateOk e = false) →
      handleGet store s e "" "" = .serverError "db query error") := by
  constructor
  · intro store mn mx
    refine ⟨[("data.csv", exportHeader ::
      (sortById (store.filter (rowMatches "" "" mn mx))).map encodeRow)], ?_⟩
    unfold handleGet
    rw [if_neg (by simp)]
  · intro store s e h
    unfold handleGet
    rw [if_pos h]

/-- C7 witness: both halves of the amended statement at concrete bounds. -/
theorem c7_witness :
    (∃ es, handleGet [] "" "" "abc" "zz" = .ok es) ∧
    handleGet [] "2024-13-99" "" "" "" = .serverError "db query error" :=
  ⟨c7_amended.1 [] "abc" "zz",
   c7_amended.2 [] "2024-13-99" "" (Or.inl ⟨by decide, by decide⟩)⟩

/-- C8 counterexample: with the mapping resolved from the first row
`name,category,price,x,date` (date column 4), the data row `a,b,5` of
length 3 is strictly shorter than the highest resolved column index, yet it
is not skipped: it is decoded with a NULL date and inserted. -/
theorem c8_counterexample :
    resolveCols ["name", "category", "price", "x", "date"] = ⟨0, 1, 2, 4⟩ ∧
    ((3 : Int) < 4) ∧
    (processCSV insNone
      [["name", "category", "price", "x", "date"], ["a", "b", "5"]]
      initState).1.itemsInserted = 1 ∧
    (processCSV insNone
      [["name", "category", "price", "x", "date"], ["a", "b", "5"]]
      initState).1.inserted = [⟨"a", "b", 5, none⟩] := by
  decide

/-- C8 amended: the malformed-width skip tests only the name, category and
price indices: whenever the row is too short for one of those three, the
row is skipped with only `rowsProcessed` incremented; the resolved date
column index takes no part in this check (a row covering the three but not
the date column proceeds with a NULL date). -/
theorem c8_amended (c : ColIdx) (ins : Nat → Option String) (st : ProcState)
    (row : List String)
    (h : c.nameIdx ≥ (row.length : Int) ∨ c.categoryIdx ≥ (row.length : Int) ∨
         c.priceIdx ≥ (row.length : Int)) :
    procRow c ins st row =
      ({ st with rowsProcessed := st.rowsProcessed + 1 }, none) := by
  unfold procRow procRowCore
  rw [if_pos h]

/-- C8 witness: the amended statement at a width-1 row. -/
theorem c8_witness :
    procRow ⟨0, 1, 2, -1⟩ insNone initState ["a"] =
      ({ initState with rowsProcessed := 1 }, none) :=
  c8_amended ⟨0, 1, 2, -1⟩ insNone initState ["a"] (by decide)

/-- C9: when the supplied date bounds are absent or store-parseable, GET
returns a single-entry archive `data.csv` whose content is the header row
followed by one encoded row per matching stored record, in ascending
store-id order; an empty result set still yields the archive with just the
header row. -/
theorem c9_export (store : List StoredRow) (startD endD minP maxP : String)
    (hs : startD = "" ∨ pgDateOk startD = true)
    (he : endD = "" ∨ pgDateOk endD = true) :
    ∃ rows : List StoredRow,
      handleGet store startD endD minP maxP =
        .ok [("data.csv", exportHeader :: rows.map encodeRow)] ∧
      List.Sorted idLE rows ∧
      rows.Perm (store.filter (rowMatches startD endD minP maxP)) ∧
      (store.filter (rowMatches startD endD minP maxP) = [] →
        handleGet store startD endD minP maxP =
          .ok [("data.csv", [exportHeader])]) := by
  have hcond : ¬((startD ≠ "" ∧ pgDateOk startD = false) ∨
      (endD ≠ "" ∧ pgDateOk endD = false)) := by
    rcases hs with h | h <;> rcases he with h' | h' <;> simp [h, h']
  refine ⟨sortById (store.filter (rowMatches startD endD minP maxP)),
    ?_, ?_, ?_, ?_⟩
  · unfold handleGet
    rw [if_neg hcond]
  · exact List.sorted_insertionSort idLE _
  · exact List.perm_insertionSort idLE _
  · intro hnil
    unfold handleGet
    rw [if_neg hcond, hnil]
    simp [sortById]

/-- C9 witness: the export statement on a store given out of id order,
with no filters. -/
theorem c9_witness :
    ∃ rows : List StoredRow,
      handleGet [⟨2, "b", "y", 2, none⟩, ⟨1, "a", "x", 1, none⟩] "" "" "" "" =
        .ok [("data.csv", exportHeader :: rows.map encodeRow)] ∧
      List.Sorted idLE rows ∧
      rows.Perm ([⟨2, "b", "y", 2, none⟩, ⟨1, "a", "x", 1, none⟩].filter
        (rowMatches "" "" "" "")) ∧
      ([⟨2, "b", "y", 2, none⟩, ⟨1, "a", "x", 1, none⟩].filter
        (rowMatches "" "" "" "") = [] →
        handleGet [⟨2, "b", "y", 2, none⟩, ⟨1, "a", "x", 1, none⟩] "" "" "" "" =
          .ok [("data.csv", [exportHeader])]) :=
  c9_export [⟨2, "b", "y", 2, none⟩, ⟨1, "a", "x", 1, none⟩] "" "" "" ""
    (Or.inl rfl) (Or.inl rfl)

/-- C10: every successful POST satisfies
`duplicates_count + total_items ≤ total_count`: each data row is counted
once in `rowsProcessed` and increments at most one of the other two. -/
theorem c10_invariant (qt : String) (entries : List Entry)
    (ins : Nat → Option String) (pre : List Rec) (stats : Stats)
    (store : List Rec)
    (h : handlePost qt entries ins pre = (.ok stats, store)) :
    stats.duplicatesCount + stats.totalItems ≤ stats.totalCount := by
  have key : ∀ (p : List Rec), postArchive entries ins p = (.ok stats, store) →
      stats.duplicatesCount + stats.totalItems ≤ stats.totalCount := by
    intro p hp
    have hinv : statsInv (processEntries ins entries initState false).1 :=
      processEntries_inv ins entries initState false (by simp [statsInv, initState])
    unfold postArchive at hp
    cases hpe : processEntries ins entries initState false with
    | mk st rest =>
      cases rest with
      | mk b e =>
        rw [hpe] at hp hinv
        dsimp only at hp hinv
        cases e
        · cases b
          · simp at hp
          · dsimp only at hp
            injection hp with hpo hps
            injection hpo with hstats
            subst hstats
            exact hinv
        · simp at hp
  unfold handlePost at h
  split at h
  · exact key pre h
  · split at h
    · exact key pre h
    · simp at h

/-- C10 witness: the invariant discharged on the concrete three-row
ingestion. -/
theorem c10_witness :
    (Stats.mk 3 1 2 2 150).duplicatesCount + (Stats.mk 3 1 2 2 150).totalItems ≤
      (Stats.mk 3 1 2 2 150).totalCount :=
  c10_invariant "zip"
    [("data.csv",
      [["name", "category", "price"],
       ["apple", "fruit", "100"],
       ["bread", "bakery", "50"],
       ["apple", "fruit", "100"]])] insNone []
    (Stats.mk 3 1 2 2 150)
    [Rec.mk "apple" "fruit" 100 none, Rec.mk "bread" "bakery" 50 none]
    (by decide)
